import Mathlib

/-!
Verification development for the Noema repository core:
a static notebook scope checker (`scripts/check-notebook-code.py`) and a
sandboxed python-runner service (`infra/lambda/python-runner/handler.py`).
The definitions below are a shallow embedding of those two programs; the
theorems at the end of the file settle the specification claims about them.
-/

set_option maxHeartbeats 1000000
set_option maxRecDepth 4000

namespace NotebookCheck

/-- Expression contexts of the syntax tree (`ast.Load` / `ast.Store` / `ast.Del`). -/
inductive Ctx where
| load
| store
| del
deriving DecidableEq

mutual

/-- Python expressions, the fragment the checker's visitor dispatches on.
Nodes without a dedicated `visit_X` method in the source are traversed by
`generic_visit`, which visits every child expression in field order; `call`,
`attr`, `tuple`, `listE`, `starred` model that generic traversal. -/
inductive Expr where
| name (id : String) (ctx : Ctx)
| const
| call (func : Expr) (args : List Expr)
| attr (value : Expr) (attrName : String) (ctx : Ctx)
| tuple (elts : List Expr) (ctx : Ctx)
| listE (elts : List Expr) (ctx : Ctx)
| starred (value : Expr) (ctx : Ctx)
| lam (args : Args) (body : Expr)
| listComp (elt : Expr) (generators : List Comp)
| setComp (elt : Expr) (generators : List Comp)
| genExp (elt : Expr) (generators : List Comp)
| dictComp (key : Expr) (value : Expr) (generators : List Comp)

/-- The `ast.arguments` record: parameter name lists plus the expression
fields (`defaults`, `kw_defaults`, parameter annotations) that `_bind_args`
never looks at. -/
inductive Args where
| mk (posonlyargs : List String) (args : List String) (kwonlyargs : List String)
    (vararg : Option String) (kwarg : Option String)
    (defaults : List Expr) (kwDefaults : List Expr) (argAnnots : List Expr)

/-- One `ast.comprehension` clause: target, iterable, conditions. -/
inductive Comp where
| mk (target : Expr) (iter : Expr) (ifs : List Expr)

/-- Python statements, the fragment relevant to the claims. `functionDef`
and `classDef` carry the decorator / default / return-annotation / base
expressions even though the visitor never descends into them. -/
inductive Stmt where
| exprStmt (e : Expr)
| assign (targets : List Expr) (value : Expr)
| functionDef (nm : String) (args : Args) (body : List Stmt)
    (decoratorList : List Expr) (returns : Option Expr)
| asyncFunctionDef (nm : String) (args : Args) (body : List Stmt)
    (decoratorList : List Expr) (returns : Option Expr)
| classDef (nm : String) (bases : List Expr) (body : List Stmt)
    (decoratorList : List Expr)
| importStmt (names : List (String × Option String))
| importFrom (module : Option String) (names : List (String × Option String))

end

/-- Finite model of `BUILTIN_NAMES = set(dir(builtins))`. -/
def BUILTIN_NAMES : Finset String :=
  {"print", "len", "range", "int", "str", "float", "bool", "list", "dict",
   "set", "tuple", "sum", "min", "max", "abs", "enumerate", "zip", "map",
   "filter", "sorted", "open", "type", "isinstance", "Exception",
   "ValueError", "None", "True", "False"}

/-- The `ALLOWED_RUNTIME_GLOBALS` constant of the checker. -/
def ALLOWED_RUNTIME_GLOBALS : Finset String :=
  {"__name__", "__file__", "__package__", "__loader__", "__spec__"}

/-- State of `UndefinedSymbolVisitor`: the copied global set, the scope
stack (head of the list is the top of the stack, `scope_stack[-1]`), and the
accumulated undefined-name set. -/
structure VState where
  globalsDefined : Finset String
  scopeStack : List (Finset String)
  undefined : Finset String
deriving DecidableEq

/-- The `_is_known` test: builtin, runtime pseudo-global, cumulative global,
or bound in some scope on the stack. -/
def isKnown (st : VState) (n : String) : Bool :=
  decide (n ∈ BUILTIN_NAMES) || decide (n ∈ ALLOWED_RUNTIME_GLOBALS) ||
    decide (n ∈ st.globalsDefined) || st.scopeStack.any (fun s => decide (n ∈ s))

/-- `self.scope_stack[-1].add(n)`: bind a name into the top-of-stack scope.
The stack is never empty in any reachable state; on an empty stack this is a
no-op. -/
def bindTop (st : VState) (n : String) : VState :=
  { st with scopeStack := st.scopeStack.modifyHead (insert n) }

/-- Push a fresh scope (`self.scope_stack.append(s)`). -/
def pushScope (st : VState) (s : Finset String) : VState :=
  { st with scopeStack := s :: st.scopeStack }

/-- Pop the top scope (`self.scope_stack.pop()`). -/
def popScope (st : VState) : VState :=
  { st with scopeStack := st.scopeStack.tail }

mutual

/-- The `_bind_name` helper: destructuring assignment targets. -/
def bindNameTarget : Expr → VState → VState
  | .name id _, st => bindTop st id
  | .tuple elts _, st => bindNameTargets elts st
  | .listE elts _, st => bindNameTargets elts st
  | .starred v _, st => bindNameTarget v st
  | _, st => st

/-- Fold `_bind_name` over a target list. -/
def bindNameTargets : List Expr → VState → VState
  | [], st => st
  | e :: es, st => bindNameTargets es (bindNameTarget e st)

end

/-- The `_bind_args` helper: parameter names enter the current scope;
defaults and annotations are ignored. -/
def bindArgs (a : Args) (st : VState) : VState :=
  match a with
  | .mk pos args kwonly vararg kwarg _ _ _ =>
    let st := (pos ++ args ++ kwonly).foldl bindTop st
    let st := match vararg with | some v => bindTop st v | none => st
    match kwarg with | some k => bindTop st k | none => st

/-- First dotted-path segment: `name.split(".")[0]` — the characters up to
the first dot. -/
def firstSegment (s : String) : String :=
  String.mk (s.toList.takeWhile (fun c => c ≠ '.'))

/-- Model of python's `str.strip()`: drop leading and trailing
whitespace. -/
def strTrim (s : String) : String :=
  String.mk (((s.toList.dropWhile Char.isWhitespace).reverse.dropWhile
    Char.isWhitespace).reverse)

/-- Model of python's `str.lower()` (ASCII case folding). -/
def strToLower (s : String) : String :=
  String.mk (s.toList.map Char.toLower)

/-- Split on commas, as python's `str.split(",")`: the empty string maps
to `[""]`, and empty fields are kept. -/
def splitCommaAux : List Char → List Char → List String
  | [], acc => [String.mk acc.reverse]
  | c :: rest, acc =>
    if c = ',' then String.mk acc.reverse :: splitCommaAux rest []
    else splitCommaAux rest (c :: acc)

/-- Model of python's `raw.split(",")`. -/
def splitComma (s : String) : List String := splitCommaAux s.toList []

mutual

/-- The visitor's `visit` on an expression node, following the source's
dispatch: `visit_Name`, `visit_Lambda`, the four comprehension visitors, and
`generic_visit` (children in field order) for everything else.  The four
comprehension cases inline `_visit_comprehension`: push a fresh scope, then
for each generator clause visit its iterable, bind its target, visit its
conditions, then visit the value node(s), then pop. -/
def visitExpr : Expr → VState → VState
  | .name id ctx, st =>
    let st := if ctx = .load && !isKnown st id then
        { st with undefined := insert id st.undefined } else st
    if ctx = .store ∨ ctx = .del then bindTop st id else st
  | .const, st => st
  | .call f args, st => visitExprs args (visitExpr f st)
  | .attr v _ _, st => visitExpr v st
  | .tuple elts _, st => visitExprs elts st
  | .listE elts _, st => visitExprs elts st
  | .starred v _, st => visitExpr v st
  | .lam a body, st =>
    let st := pushScope st ∅
    let st := bindArgs a st
    let st := visitExpr body st
    popScope st
  | .listComp elt gens, st =>
    let st := pushScope st ∅
    let st := visitGens gens st
    let st := visitExpr elt st
    popScope st
  | .setComp elt gens, st =>
    let st := pushScope st ∅
    let st := visitGens gens st
    let st := visitExpr elt st
    popScope st
  | .genExp elt gens, st =>
    let st := pushScope st ∅
    let st := visitGens gens st
    let st := visitExpr elt st
    popScope st
  | .dictComp key value gens, st =>
    let st := pushScope st ∅
    let st := visitGens gens st
    let st := visitExpr key st
    let st := visitExpr value st
    popScope st

/-- Visit the generator clauses of a comprehension, in order. -/
def visitGens : List Comp → VState → VState
  | [], st => st
  | .mk tgt iter ifs :: rest, st =>
    let st := visitExpr iter st
    let st := bindNameTarget tgt st
    let st := visitExprs ifs st
    visitGens rest st

/-- Visit a list of expressions in order. -/
def visitExprs : List Expr → VState → VState
  | [], st => st
  | e :: es, st => visitExprs es (visitExpr e st)

/-- The visitor's `visit` on a statement node: `visit_FunctionDef`,
`visit_AsyncFunctionDef` (both through `_visit_function_like`, inlined),
`visit_ClassDef`, `visit_Import`, `visit_ImportFrom`, and `generic_visit`
for plain expression/assignment statements.  Decorators, parameter
defaults, annotations and class bases are never visited, exactly as in the
source. -/
def visitStmt : Stmt → VState → VState
  | .exprStmt e, st => visitExpr e st
  | .assign targets value, st => visitExpr value (visitExprs targets st)
  | .functionDef nm a body _ _, st =>
    let st := bindTop st nm
    let st := pushScope st ∅
    let st := bindArgs a st
    let st := visitStmts body st
    popScope st
  | .asyncFunctionDef nm a body _ _, st =>
    let st := bindTop st nm
    let st := pushScope st ∅
    let st := bindArgs a st
    let st := visitStmts body st
    popScope st
  | .classDef nm _ body _, st =>
    let st := bindTop st nm
    let st := pushScope st {"__class__"}
    let st := visitStmts body st
    popScope st
  | .importStmt names, st =>
    names.foldl (fun acc al => bindTop acc (al.2.getD (firstSegment al.1))) st
  | .importFrom _ names, st =>
    names.foldl (fun acc al =>
      if al.1 = "*" then acc else bindTop acc (al.2.getD al.1)) st

/-- Visit a list of statements in order (the module body). -/
def visitStmts : List Stmt → VState → VState
  | [], st => st
  | s :: ss, st => visitStmts ss (visitStmt s st)

end

/-- Run the resolver on one parsed cell against the cumulative globals, as
`check_notebook` does: fresh visitor with one empty scope, visit the module
body, read off `visitor.undefined`. -/
def resolveCell (tree : List Stmt) (g : Finset String) : Finset String :=
  (visitStmts tree ⟨g, [∅], ∅⟩).undefined

mutual

/-- All store-context `Name` ids anywhere in an expression subtree, as seen
by `ast.walk` in the builder's catch-all branch. -/
def storeNamesE : Expr → Finset String
  | .name i c => if c = .store then {i} else ∅
  | .const => ∅
  | .call f args => storeNamesE f ∪ storeNamesEs args
  | .attr v _ _ => storeNamesE v
  | .tuple elts _ => storeNamesEs elts
  | .listE elts _ => storeNamesEs elts
  | .starred v _ => storeNamesE v
  | .lam a b => storeNamesA a ∪ storeNamesE b
  | .listComp e gens => storeNamesE e ∪ storeNamesGs gens
  | .setComp e gens => storeNamesE e ∪ storeNamesGs gens
  | .genExp e gens => storeNamesE e ∪ storeNamesGs gens
  | .dictComp k v gens => storeNamesE k ∪ storeNamesE v ∪ storeNamesGs gens

/-- Store-context names inside an `ast.arguments` record (`ast.walk`
descends into defaults and annotations too). -/
def storeNamesA : Args → Finset String
  | .mk _ _ _ _ _ defaults kwDefaults argAnnots =>
    storeNamesEs defaults ∪ storeNamesEs kwDefaults ∪ storeNamesEs argAnnots

/-- Store-context names inside one generator clause. -/
def storeNamesC : Comp → Finset String
  | .mk tgt iter ifs => storeNamesE tgt ∪ storeNamesE iter ∪ storeNamesEs ifs

/-- Store-context names inside a list of generator clauses. -/
def storeNamesGs : List Comp → Finset String
  | [] => ∅
  | c :: cs => storeNamesC c ∪ storeNamesGs cs

/-- Store-context names inside a list of expressions. -/
def storeNamesEs : List Expr → Finset String
  | [] => ∅
  | e :: es => storeNamesE e ∪ storeNamesEs es

/-- Store-context names anywhere in one statement's subtree (`ast.walk`). -/
def storeNamesS : Stmt → Finset String
  | .exprStmt e => storeNamesE e
  | .assign targets value => storeNamesEs targets ∪ storeNamesE value
  | .functionDef _ a body decs ret =>
    storeNamesA a ∪ storeNamesSs body ∪ storeNamesEs decs ∪
      (match ret with | some r => storeNamesE r | none => ∅)
  | .asyncFunctionDef _ a body decs ret =>
    storeNamesA a ∪ storeNamesSs body ∪ storeNamesEs decs ∪
      (match ret with | some r => storeNamesE r | none => ∅)
  | .classDef _ bases body decs =>
    storeNamesEs bases ∪ storeNamesSs body ∪ storeNamesEs decs
  | .importStmt _ => ∅
  | .importFrom _ _ => ∅

/-- Store-context names inside a list of statements. -/
def storeNamesSs : List Stmt → Finset String
  | [] => ∅
  | s :: ss => storeNamesS s ∪ storeNamesSs ss

end

/-- Name bound by one `import` alias: the alias if present, else the first
dotted segment of the module path. -/
def bindImportName (al : String × Option String) : String :=
  al.2.getD (firstSegment al.1)

/-- The Symbol-Table Builder `collect_top_level_defs(tree, globals_defined)`:
walk the top-level statements of the module, adding bound names to the
global set.  Function/class definitions contribute their own name; imports
contribute alias names; every other statement contributes all store-context
`Name` ids found by `ast.walk` over its whole subtree. -/
def collect_top_level_defs (tree : List Stmt) (g : Finset String) : Finset String :=
  tree.foldl (fun acc node =>
    match node with
    | .functionDef nm _ _ _ _ => insert nm acc
    | .asyncFunctionDef nm _ _ _ _ => insert nm acc
    | .classDef nm _ _ _ => insert nm acc
    | .importStmt names =>
      names.foldl (fun a al => insert (bindImportName al) a) acc
    | .importFrom _ names =>
      names.foldl (fun a al =>
        if al.1 = "*" then a else insert (al.2.getD al.1) a) acc
    | other => acc ∪ storeNamesS other) g

/-- Outcome of reading and parsing one code cell's source text.  Parsing of
raw text is outside the embedding; a cell is given by its parse outcome:
whitespace-only source, a syntax error, or a parsed module body. -/
inductive CellSource where
| blank
| syntaxError (msg : String)
| parsed (tree : List Stmt)

/-- One notebook cell: its `cell_type` string and its source. -/
structure Cell where
  cellType : String
  src : CellSource

/-- One notebook: its path and its ordered cells. -/
structure Notebook where
  path : String
  cells : List Cell

/-- One finding, structurally: the formatted strings
`f"{path}:code#{i}: SyntaxError: {msg}"` and
`f"{path}:code#{i}: Undefined symbols: {names}"` carry exactly this data
(the sorted string rendering of the name set is abstracted). -/
inductive Finding where
| syntaxErr (path : String) (cellIdx : Nat) (msg : String)
| undefinedSymbols (path : String) (cellIdx : Nat) (names : Finset String)
deriving DecidableEq

/-- The notebook path a finding is attributed to. -/
def findingPath : Finding → String
  | .syntaxErr p _ _ => p
  | .undefinedSymbols p _ _ => p

/-- The code-cell ordinal a finding is attributed to. -/
def findingIdx : Finding → Nat
  | .syntaxErr _ i _ => i
  | .undefinedSymbols _ i _ => i

/-- The cell loop of `check_notebook`: skip non-code cells, count code
cells, skip blank sources, emit a `SyntaxError` finding and continue on
parse failure (without touching the global set), otherwise resolve against
the current globals, emit an `UndefinedSymbol` finding when nonempty, and
extend the globals with the cell's top-level definitions. -/
def checkCells (path : String) : List Cell → Finset String → Nat → List Finding
  | [], _, _ => []
  | c :: rest, g, idx =>
    if c.cellType ≠ "code" then checkCells path rest g idx
    else
      match c.src with
      | .blank => checkCells path rest g (idx + 1)
      | .syntaxError msg =>
        .syntaxErr path (idx + 1) msg :: checkCells path rest g (idx + 1)
      | .parsed tree =>
        let undef := resolveCell tree g
        let tl := checkCells path rest (collect_top_level_defs tree g) (idx + 1)
        if undef ≠ ∅ then .undefinedSymbols path (idx + 1) undef :: tl else tl

/-- The Cumulative Checker `check_notebook(path)`: fresh empty global set,
findings accumulated over the cells in order. -/
def check_notebook (nb : Notebook) : List Finding :=
  checkCells nb.path nb.cells ∅ 0

/-- The `main` loop over the (sorted) notebook list: findings are the
concatenation of each notebook's own findings, in order. -/
def checkAll (nbs : List Notebook) : List Finding :=
  nbs.flatMap check_notebook

mutual

/-- Erase exactly the expression positions the resolver never visits —
decorator lists, parameter defaults, parameter and return annotations, and
class base lists — leaving everything else intact. -/
def eraseE : Expr → Expr
  | .name i c => .name i c
  | .const => .const
  | .call f args => .call (eraseE f) (eraseEs args)
  | .attr v a c => .attr (eraseE v) a c
  | .tuple es c => .tuple (eraseEs es) c
  | .listE es c => .listE (eraseEs es) c
  | .starred v c => .starred (eraseE v) c
  | .lam a b => .lam (eraseA a) (eraseE b)
  | .listComp e gs => .listComp (eraseE e) (eraseGs gs)
  | .setComp e gs => .setComp (eraseE e) (eraseGs gs)
  | .genExp e gs => .genExp (eraseE e) (eraseGs gs)
  | .dictComp k v gs => .dictComp (eraseE k) (eraseE v) (eraseGs gs)

/-- Erase defaults and annotations from an argument record. -/
def eraseA : Args → Args
  | .mk p a k va kw _ _ _ => .mk p a k va kw [] [] []

/-- Erase inside one generator clause. -/
def eraseC : Comp → Comp
  | .mk t i ifs => .mk (eraseE t) (eraseE i) (eraseEs ifs)

/-- Erase inside a list of generator clauses. -/
def eraseGs : List Comp → List Comp
  | [] => []
  | c :: cs => eraseC c :: eraseGs cs

/-- Erase inside a list of expressions. -/
def eraseEs : List Expr → List Expr
  | [] => []
  | e :: es => eraseE e :: eraseEs es

/-- Erase unvisited expression positions from a statement. -/
def eraseS : Stmt → Stmt
  | .exprStmt e => .exprStmt (eraseE e)
  | .assign ts v => .assign (eraseEs ts) (eraseE v)
  | .functionDef nm a body _ _ => .functionDef nm (eraseA a) (eraseSs body) [] none
  | .asyncFunctionDef nm a body _ _ =>
    .asyncFunctionDef nm (eraseA a) (eraseSs body) [] none
  | .classDef nm _ body _ => .classDef nm [] (eraseSs body) []
  | .importStmt ns => .importStmt ns
  | .importFrom m ns => .importFrom m ns

/-- Erase unvisited expression positions from a statement list. -/
def eraseSs : List Stmt → List Stmt
  | [] => []
  | s :: ss => eraseS s :: eraseSs ss

end

end NotebookCheck

namespace Runner

/-- `MAX_CODE_CHARS` from the handler. -/
def MAX_CODE_CHARS : Nat := 20000

/-- `MAX_EXPECTED_MODULES` from the handler. -/
def MAX_EXPECTED_MODULES : Nat := 24

/-- The `PACKAGE_MAP` dictionary. -/
def PACKAGE_MAP (m : String) : Option String :=
  if m = "sklearn" then some "scikit-learn"
  else if m = "PIL" then some "pillow"
  else if m = "cv2" then some "opencv-python-headless"
  else if m = "yaml" then some "pyyaml"
  else if m = "bs4" then some "beautifulsoup4"
  else if m = "skimage" then some "scikit-image"
  else if m = "xgboost" then some "xgboost"
  else none

/-- `_module_to_package`: remap via `PACKAGE_MAP`, pass through otherwise. -/
def moduleToPackage (module_name : String) : String :=
  (PACKAGE_MAP module_name).getD module_name

/-- Identifier test for the regex `^[A-Za-z_][A-Za-z0-9_]*$`. -/
def isIdentChar (c : Char) : Bool :=
  (c ≥ 'A' && c ≤ 'Z') || (c ≥ 'a' && c ≤ 'z') || c = '_'

/-- Continuation characters of the identifier regex. -/
def isIdentTailChar (c : Char) : Bool :=
  isIdentChar c || (c ≥ '0' && c ≤ '9')

/-- Full-string match of `^[A-Za-z_][A-Za-z0-9_]*$`. -/
def isIdent (s : String) : Bool :=
  match s.toList with
  | [] => false
  | c :: cs => isIdentChar c && cs.all isIdentTailChar

/-- One step of the `_coerce_modules` loop body. -/
def coerceStep (acc : List String × List String) (item : String) :
    List String × List String :=
  let (modules, seen) := acc
  if modules.length ≥ MAX_EXPECTED_MODULES then acc
  else
    let base := NotebookCheck.firstSegment (NotebookCheck.strTrim item)
    if base = "" then acc
    else if !isIdent base then acc
    else if base ∈ seen then acc
    else (modules ++ [base], base :: seen)

/-- `_coerce_modules`: non-list input yields `[]`; list items are trimmed,
truncated to the first dotted segment, filtered to identifiers,
deduplicated, and capped at `MAX_EXPECTED_MODULES`. -/
def coerceModules (raw : Option (List String)) : List String :=
  match raw with
  | none => []
  | some items => (items.foldl coerceStep ([], [])).1

/-- `_coerce_modules_from_csv`: split on commas, drop empty entries, then
coerce. -/
def coerceModulesFromCsv (raw : String) : List String :=
  if raw = "" then []
  else coerceModules
    (some (((NotebookCheck.splitComma raw).map NotebookCheck.strTrim).filter (· ≠ "")))

/-- The default `NOEMA_BASE_MODULES` value (environment override not
modelled). -/
def BASE_MODULES_RAW : String :=
  "numpy,pandas,scipy,matplotlib,sklearn,seaborn,sympy,statsmodels,networkx"

/-- `BASE_MODULES = _coerce_modules_from_csv(BASE_MODULES_RAW)`. -/
def BASE_MODULES : List String := coerceModulesFromCsv BASE_MODULES_RAW

/-- Outcome of one `pip install` subprocess, supplied by an oracle indexed
by the number of installer invocations made so far. -/
inductive InstallOutcome where
| success
| nonzeroExit
| timedOut
deriving DecidableEq

/-- Outcome of one sandbox child process (`subprocess.run` of the exec
wrapper), supplied by an oracle indexed by the number of runner invocations
made so far: a wall-clock timeout, a nonzero exit with some stderr text, an
exit whose stdout is not valid JSON, or a decoded wrapper payload. -/
inductive ChildOutcome where
| timedOut
| nonzeroExit (stderr : String)
| badJson
| payload (ok : Bool) (stdout : String) (stderr : String) (error : Option String)
deriving DecidableEq

/-- Process-wide mutable state of the handler module: the
`installed_packages` / `failed_packages` caches, the `base_preload_done`
flag, and counters for the two kinds of subprocess spawned (pip installs
and sandbox runs), used to index the oracles. -/
structure ExecState where
  installedPkgs : Finset String
  failedPkgs : Finset String
  pipCalls : Nat
  runCalls : Nat
  basePreloadDone : Bool
deriving DecidableEq

/-- The Dependency Resolver `_install_package(module_name)`.  The map
lookup and both cache lookups happen before any subprocess; a fresh package
spawns exactly one installer subprocess, whose outcome the oracle gives.
On success the package is recorded Installed (and discarded from Failed);
on nonzero exit it is recorded Failed; on a pip timeout the function
returns failure WITHOUT recording anything (the `TimeoutExpired` branch in
the source returns before `failed_packages.add`).  The lock and its
double-checked re-read are identities in this sequential model. -/
def installPackage (po : Nat → InstallOutcome) (st : ExecState)
    (module_name : String) : (Bool × String) × ExecState :=
  let package_name := moduleToPackage module_name
  if package_name ∈ st.installedPkgs then ((true, package_name), st)
  else if package_name ∈ st.failedPkgs then ((false, package_name), st)
  else
    match po st.pipCalls with
    | .timedOut => ((false, package_name), { st with pipCalls := st.pipCalls + 1 })
    | .nonzeroExit =>
      ((false, package_name),
        { st with failedPkgs := insert package_name st.failedPkgs,
                  pipCalls := st.pipCalls + 1 })
    | .success =>
      ((true, package_name),
        { st with installedPkgs := insert package_name st.installedPkgs,
                  failedPkgs := st.failedPkgs.erase package_name,
                  pipCalls := st.pipCalls + 1 })

/-- Keep the first occurrence of each element, dropping later duplicates:
`list(dict.fromkeys(xs))`. -/
def dedupFirstAux (seen : List String) : List String → List String
  | [] => []
  | a :: l =>
    if a ∈ seen then dedupFirstAux seen l else a :: dedupFirstAux (a :: seen) l

/-- `list(dict.fromkeys(xs))`. -/
def dedupFirst (l : List String) : List String := dedupFirstAux [] l

/-- Loop of `_preload_modules`: try each module in order, collecting
resolved package names and failed module names. -/
def preloadAux (po : Nat → InstallOutcome) :
    List String → ExecState → List String → List String →
    (List String × List String) × ExecState
  | [], st, inst, fail => ((dedupFirst inst, dedupFirst fail), st)
  | m :: ms, st, inst, fail =>
    let r := installPackage po st m
    if r.1.1 then preloadAux po ms r.2 (inst ++ [r.1.2]) fail
    else preloadAux po ms r.2 inst (fail ++ [m])

/-- `_preload_modules(modules)`: per-module install attempts, order kept,
duplicates removed at the end. -/
def preloadModules (po : Nat → InstallOutcome) (st : ExecState)
    (modules : List String) : (List String × List String) × ExecState :=
  preloadAux po modules st [] []

/-- `_ensure_base_modules()`: on the first call of the process, set the
flag and preload `BASE_MODULES`; afterwards return empty lists. -/
def ensureBaseModules (po : Nat → InstallOutcome) (st : ExecState) :
    (List String × List String) × ExecState :=
  if st.basePreloadDone then (([], []), st)
  else preloadModules po { st with basePreloadDone := true } BASE_MODULES

/-- Structured result of one `_run_code_once` call. -/
structure RunResult where
  ok : Bool
  timedOut : Bool
  stdout : String
  stderr : String
  error : Option String
deriving DecidableEq

/-- Normalization `str(payload.get("error") or "") or None` applied to the
decoded wrapper error field. -/
def normErr : Option String → Option String
  | none => none
  | some "" => none
  | some s => some s

/-- The Sandboxed Runner `_run_code_once(code, timeout)`: map the child
process outcome to the structured result exactly as the source does. -/
def runCodeOnce : ChildOutcome → RunResult
  | .timedOut =>
    ⟨false, true, "", "Execution timed out.", some "Execution timed out."⟩
  | .nonzeroExit stderrText =>
    ⟨false, false, "",
      (if stderrText = "" then "Python runner process failed." else stderrText),
      some "Python runner process failed."⟩
  | .badJson =>
    ⟨false, false, "", "Python runner response decode failed.",
      some "Python runner response decode failed."⟩
  | .payload ok stdout stderr error => ⟨ok, false, stdout, stderr, normErr error⟩

/-- Quote characters accepted by the missing-module regex. -/
def isQuote (c : Char) : Bool := c = Char.ofNat 39 || c = Char.ofNat 34

/-- Body of the regex capture `[^'\x22]+` followed by a closing quote:
accumulate non-quote characters; succeed at the first quote if at least one
character was captured. -/
def grabQuoted : List Char → List Char → Option String
  | [], _ => none
  | c :: rest, acc =>
    if isQuote c then
      (if acc.isEmpty then none else some (String.mk acc))
    else grabQuoted rest (acc ++ [c])

/-- Match the tail of `MODULE_RE` (an opening quote, the capture, a closing
quote) at the current position. -/
def matchQuote : List Char → Option String
  | [] => none
  | c :: rest => if isQuote c then grabQuoted rest [] else none

/-- Match a literal character list as a prefix, returning the remainder. -/
def dropLiteral : List Char → List Char → Option (List Char)
  | [], s => some s
  | _, [] => none
  | p :: ps, c :: cs => if c = p then dropLiteral ps cs else none

/-- Try `MODULE_RE` anchored at the current position. -/
def matchModuleAt (s : List Char) : Option String :=
  match dropLiteral "No module named ".toList s with
  | none => none
  | some rest => matchQuote rest

/-- `re.search` with `MODULE_RE`: leftmost match wins. -/
def searchModule : List Char → Option String
  | [] => none
  | c :: rest =>
    match matchModuleAt (c :: rest) with
    | some m => some m
    | none => searchModule rest

/-- `_extract_missing_module(stderr_text)`: regex search for
`No module named '...'`, returning the first dotted segment of the capture,
or the empty string when there is no match. -/
def extractMissingModule (stderr_text : String) : String :=
  match searchModule stderr_text.toList with
  | none => ""
  | some m => NotebookCheck.firstSegment m

/-- The value-typed execution result returned by the execute path. -/
structure ExecResult where
  stdout : String
  stderr : String
  error : Option String
  timedOut : Bool
  durationMs : Nat
  installedPackages : List String
  failedModules : List String
deriving DecidableEq

/-- The Execution Orchestrator `_execute_with_auto_install(code,
modules_hint)`: preload the hints, run once, and when the first result is a
non-timeout failure whose stderr yields a missing module that then
installs, run exactly once more.  `durationMs` is the measured wall time,
an oracle here.  The returned `installedPackages` list is re-deduplicated;
`failedModules` is the preload failure list unchanged — a failed
remediation install is not recorded in it. -/
def executeWithAutoInstall (po : Nat → InstallOutcome) (ro : Nat → ChildOutcome)
    (dur : Nat) (st : ExecState) (code : String) (modules_hint : List String) :
    ExecResult × ExecState :=
  let p := preloadModules po st modules_hint
  let installed := p.1.1
  let failed := p.1.2
  let st1 := p.2
  let r1 := runCodeOnce (ro st1.runCalls)
  let st2 := { st1 with runCalls := st1.runCalls + 1 }
  let step :=
    if !r1.ok && !r1.timedOut then
      let missing := extractMissingModule r1.stderr
      if missing ≠ "" then
        let ip := installPackage po st2 missing
        if ip.1.1 then
          let r2 := runCodeOnce (ro ip.2.runCalls)
          (r2, installed ++ [ip.1.2], { ip.2 with runCalls := ip.2.runCalls + 1 })
        else (r1, installed, ip.2)
      else (r1, installed, st2)
    else (r1, installed, st2)
  ({ stdout := step.1.stdout, stderr := step.1.stderr, error := step.1.error,
     timedOut := step.1.timedOut, durationMs := dur,
     installedPackages := dedupFirst step.2.1, failedModules := failed },
   step.2.2)

/-- An invocation event: `action`, `code` and `expectedModules` fields
(each possibly absent; a non-list `expectedModules` is `none`). -/
structure Event where
  action : Option String
  code : Option String
  expectedModules : Option (List String)

/-- `not code.strip()`: a string strips to empty iff every character is
whitespace. -/
def isBlank (s : String) : Bool := s.toList.all Char.isWhitespace

/-- A handler response: the preload shape or the execute shape. -/
inductive HandlerResponse where
| preloadResp (ok : Bool) (installedPackages : List String)
    (failedModules : List String)
| execResp (r : ExecResult)
deriving DecidableEq

/-- `lambda_handler(event, context)`: normalize the action, coerce the
hints, ensure base modules, then dispatch: the preload action returns the
merged install lists; the execute path rejects blank code, then over-long
code (before any run), then executes with auto-install and merges the
base-preload lists into the result.  The enclosing `try/except` is not
modelled (the model is total). -/
def lambdaHandler (po : Nat → InstallOutcome) (ro : Nat → ChildOutcome)
    (dur : Nat) (st : ExecState) (ev : Event) : HandlerResponse × ExecState :=
  let action := NotebookCheck.strToLower (NotebookCheck.strTrim (ev.action.getD "execute"))
  let modulesHint := coerceModules ev.expectedModules
  let base := ensureBaseModules po st
  let baseInstalled := base.1.1
  let baseFailed := base.1.2
  let st1 := base.2
  if action = "preload" then
    let p := preloadModules po st1 modulesHint
    (.preloadResp true (dedupFirst (baseInstalled ++ p.1.1))
      (dedupFirst (baseFailed ++ p.1.2)), p.2)
  else
    let code := ev.code.getD ""
    if isBlank code then
      (.execResp ⟨"", "", some "Code is required.", false, 0, [], []⟩, st1)
    else if code.length > MAX_CODE_CHARS then
      (.execResp ⟨"", "", some "Code is too long (max 20000 characters).",
        false, 0, [], []⟩, st1)
    else
      let r := executeWithAutoInstall po ro dur st1 code modulesHint
      (.execResp { r.1 with
          installedPackages := dedupFirst (baseInstalled ++ r.1.installedPackages),
          failedModules := dedupFirst (baseFailed ++ r.1.failedModules) },
       r.2)

/-- Derived specification value: the package names appended by the
remediation phase of `executeWithAutoInstall` — the singleton resolved
package when the first run is a non-timeout failure with an extractable
missing module that installs, and empty otherwise. -/
def retryInstalls (po : Nat → InstallOutcome) (ro : Nat → ChildOutcome)
    (st : ExecState) (hints : List String) : List String :=
  let st1 := (preloadModules po st hints).2
  let r1 := runCodeOnce (ro st1.runCalls)
  let st2 := { st1 with runCalls := st1.runCalls + 1 }
  if !r1.ok && !r1.timedOut then
    let missing := extractMissingModule r1.stderr
    if missing ≠ "" then
      let ip := installPackage po st2 missing
      if ip.1.1 then [ip.1.2] else []
    else []
  else []

/-- Concrete installer oracle: every pip invocation times out. -/
def poTimeout : Nat → InstallOutcome := fun _ => .timedOut

/-- Concrete installer oracle: every pip invocation exits nonzero. -/
def poNonzero : Nat → InstallOutcome := fun _ => .nonzeroExit

/-- Concrete runner oracle: every run fails inside the wrapper with a
missing-module traceback for `foo`. -/
def roMissingFoo : Nat → ChildOutcome := fun _ =>
  .payload false "" "ModuleNotFoundError: No module named 'foo'"
    (some "Python execution failed")

/-- Concrete warm process state: empty caches, base preload already done. -/
def stWarm : ExecState := ⟨∅, ∅, 0, 0, true⟩

/-- Concrete fresh process state: empty caches, base preload not yet run. -/
def stFresh : ExecState := ⟨∅, ∅, 0, 0, false⟩

/-- A concrete 20001-character code string, one character over the
`MAX_CODE_CHARS` ceiling. -/
def bigCode : String := String.mk (List.replicate 20001 'a')

end Runner

namespace NotebookCheck

/-- Every finding produced by the cell loop carries a code-cell ordinal
strictly beyond the starting counter. -/
theorem findingIdx_ge (path : String) : ∀ (cells : List Cell) (g : Finset String)
    (i : Nat) (f : Finding), f ∈ checkCells path cells g i → i + 1 ≤ findingIdx f := by
  intro cells
  induction cells with
  | nil => intro g i f hf; simp [checkCells] at hf
  | cons c rest ih =>
    intro g i f hf
    rw [checkCells] at hf
    by_cases hct : c.cellType ≠ "code"
    · rw [if_pos hct] at hf
      exact ih g i f hf
    · rw [if_neg hct] at hf
      cases hsrc : c.src with
      | blank =>
        rw [hsrc] at hf
        have := ih g (i + 1) f hf
        omega
      | syntaxError msg =>
        rw [hsrc] at hf
        rcases List.mem_cons.mp hf with h | h
        · subst h; simp [findingIdx]
        · have := ih g (i + 1) f h
          omega
      | parsed tree =>
        rw [hsrc] at hf
        dsimp only at hf
        split at hf
        · rcases List.mem_cons.mp hf with h | h
          · subst h; simp [findingIdx]
          · have := ih (collect_top_level_defs tree g) (i + 1) f h
            omega
        · have := ih (collect_top_level_defs tree g) (i + 1) f hf
          omega

/-- Every finding produced by the cell loop carries the loop's own path. -/
theorem findingPath_eq (path : String) : ∀ (cells : List Cell) (g : Finset String)
    (i : Nat) (f : Finding), f ∈ checkCells path cells g i → findingPath f = path := by
  intro cells
  induction cells with
  | nil => intro g i f hf; simp [checkCells] at hf
  | cons c rest ih =>
    intro g i f hf
    rw [checkCells] at hf
    by_cases hct : c.cellType ≠ "code"
    · rw [if_pos hct] at hf
      exact ih g i f hf
    · rw [if_neg hct] at hf
      cases hsrc : c.src with
      | blank =>
        rw [hsrc] at hf
        exact ih g (i + 1) f hf
      | syntaxError msg =>
        rw [hsrc] at hf
        rcases List.mem_cons.mp hf with h | h
        · subst h; simp [findingPath]
        · exact ih g (i + 1) f h
      | parsed tree =>
        rw [hsrc] at hf
        dsimp only at hf
        split at hf
        · rcases List.mem_cons.mp hf with h | h
          · subst h; simp [findingPath]
          · exact ih (collect_top_level_defs tree g) (i + 1) f h
        · exact ih (collect_top_level_defs tree g) (i + 1) f hf

/-- Claim C6: a code cell whose source fails to parse produces exactly one
SyntaxError finding for that cell, the checker continues with the
remaining cells of the same notebook, and the Global Scope is passed on
unchanged — so no name from the unparseable cell becomes known to later
cells; all findings of the remaining cells carry strictly larger cell
ordinals, so the one SyntaxError finding is the only finding for that
cell. -/
theorem C6_syntax_error_cell (path msg : String) (rest : List Cell)
    (g : Finset String) (idx : Nat) :
    checkCells path ({ cellType := "code", src := .syntaxError msg } :: rest) g idx
      = .syntaxErr path (idx + 1) msg :: checkCells path rest g (idx + 1)
    ∧ (checkCells path rest g (idx + 1)).all
        (fun f => decide (idx + 2 ≤ findingIdx f)) = true := by
  constructor
  · rw [checkCells]
    simp
  · rw [List.all_eq_true]
    intro f hf
    rw [decide_eq_true_eq]
    have := findingIdx_ge path rest g (idx + 1) f hf
    omega

/-- Claim C8: the findings of the whole run are the concatenation of each
notebook's own findings, computed by `check_notebook` from that notebook
alone; and every finding produced for a notebook is attributed to that
notebook's path.  Hence the findings attributed to notebook `nb` do not
depend on the other notebooks in the run. -/
theorem C8_per_notebook_isolation (pre post : List Notebook) (nb : Notebook) :
    checkAll (pre ++ nb :: post)
      = checkAll pre ++ (check_notebook nb ++ checkAll post)
    ∧ (check_notebook nb).all (fun f => findingPath f == nb.path) = true := by
  constructor
  · simp [checkAll]
  · rw [List.all_eq_true]
    intro f hf
    have := findingPath_eq nb.path nb.cells ∅ 0 f hf
    simpa [beq_iff_eq] using this

/-- Claim C1, counterexample: the cell `ys = [x for x in ...]` consists of
one top-level assignment, so the builder's catch-all branch walks its whole
subtree with `ast.walk` and collects the comprehension loop variable `x`
(a name bound only inside the comprehension body) into the Global Scope;
consequently a later cell loading `x` at top level is NOT reported as
undefined. -/
theorem C1_counterexample :
    "x" ∈ collect_top_level_defs
        [.assign [.name "ys" .store]
          (.listComp (.name "x" .load) [.mk (.name "x" .store) .const []])] ∅
    ∧ resolveCell [.exprStmt (.name "x" .load)]
        (collect_top_level_defs
          [.assign [.name "ys" .store]
            (.listComp (.name "x" .load) [.mk (.name "x" .store) .const []])] ∅)
        = ∅ := by
  constructor
  · decide
  · decide

/-- Claim C1, amended: for a top-level function, async-function or class
definition, the builder adds only the construct's own name — names bound
inside the body never reach the Global Scope, and such a name is reported
as undefined when loaded at top level in a later cell.  (For other
top-level statements the builder walks the full subtree, so names bound
inside nested comprehensions or lambdas there DO leak, see the
counterexample.) -/
theorem C1_amended (nm n : String) (a : Args) (body : List Stmt)
    (decs bases : List Expr) (ret : Option Expr) (g : Finset String)
    (h1 : n ≠ nm) (h2 : n ∉ g) (h3 : n ∉ BUILTIN_NAMES)
    (h4 : n ∉ ALLOWED_RUNTIME_GLOBALS) :
    n ∉ collect_top_level_defs [.functionDef nm a body decs ret] g
    ∧ n ∉ collect_top_level_defs [.asyncFunctionDef nm a body decs ret] g
    ∧ n ∉ collect_top_level_defs [.classDef nm bases body decs] g
    ∧ n ∈ resolveCell [.exprStmt (.name n .load)]
        (collect_top_level_defs [.functionDef nm a body decs ret] g) := by
  refine ⟨?_, ?_, ?_, ?_⟩
  · simp [collect_top_level_defs, Finset.mem_insert, h1, h2]
  · simp [collect_top_level_defs, Finset.mem_insert, h1, h2]
  · simp [collect_top_level_defs, Finset.mem_insert, h1, h2]
  · show n ∈ resolveCell [.exprStmt (.name n .load)] (insert nm g)
    simp [resolveCell, visitStmts, visitStmt, visitExpr, isKnown,
      Finset.mem_insert, h1, h2, h3, h4]

/-- Claim C1, witness for the amended theorem: `def f(): z = 1` in one
cell; `z` stays out of the Global Scope and a later `z` load is
reported. -/
theorem C1_amended_witness :
    ("z" ≠ "f" ∧ ("z" : String) ∉ (∅ : Finset String)
      ∧ "z" ∉ BUILTIN_NAMES ∧ "z" ∉ ALLOWED_RUNTIME_GLOBALS)
    ∧ ("z" ∉ collect_top_level_defs
          [.functionDef "f" (.mk [] [] [] none none [] [] [])
            [.assign [.name "z" .store] .const] [] none] ∅
      ∧ "z" ∉ collect_top_level_defs
          [.asyncFunctionDef "f" (.mk [] [] [] none none [] [] [])
            [.assign [.name "z" .store] .const] [] none] ∅
      ∧ "z" ∉ collect_top_level_defs
          [.classDef "f" [] [.assign [.name "z" .store] .const] []] ∅
      ∧ "z" ∈ resolveCell [.exprStmt (.name "z" .load)]
          (collect_top_level_defs
            [.functionDef "f" (.mk [] [] [] none none [] [] [])
              [.assign [.name "z" .store] .const] [] none] ∅)) :=
  ⟨⟨by decide, by decide, by decide, by decide⟩,
    C1_amended "f" "z" (.mk [] [] [] none none [] [] [])
      [.assign [.name "z" .store] .const] [] [] none ∅
      (by decide) (by decide) (by decide) (by decide)⟩

/-- Claim C10: a star-import binds nothing.  The builder leaves the Global
Scope unchanged, the resolver's `visit_ImportFrom` skips the `*` alias
entirely (the visitor state is untouched), and a name supplied only by the
star-import is reported as undefined both in the importing cell itself and
in a later cell. -/
theorem C10_star_import_binds_nothing (mod : Option String) (n : String)
    (g : Finset String) (h2 : n ∉ g) (h3 : n ∉ BUILTIN_NAMES)
    (h4 : n ∉ ALLOWED_RUNTIME_GLOBALS) :
    collect_top_level_defs [.importFrom mod [("*", none)]] g = g
    ∧ (∀ st : VState, visitStmt (.importFrom mod [("*", none)]) st = st)
    ∧ n ∈ resolveCell [.importFrom mod [("*", none)],
          .exprStmt (.name n .load)] g
    ∧ n ∈ resolveCell [.exprStmt (.name n .load)]
        (collect_top_level_defs [.importFrom mod [("*", none)]] g) := by
  refine ⟨?_, ?_, ?_, ?_⟩
  · simp [collect_top_level_defs]
  · intro st; simp [visitStmt]
  · simp [resolveCell, visitStmts, visitStmt, visitExpr, isKnown, h2, h3, h4]
  · simp [collect_top_level_defs, resolveCell, visitStmts, visitStmt,
      visitExpr, isKnown, h2, h3, h4]

/-- Claim C10, witness: `from m import *` then a load of `zzq`. -/
theorem C10_star_import_witness :
    (("zzq" : String) ∉ (∅ : Finset String) ∧ "zzq" ∉ BUILTIN_NAMES
      ∧ "zzq" ∉ ALLOWED_RUNTIME_GLOBALS)
    ∧ (collect_top_level_defs [.importFrom (some "m") [("*", none)]] ∅ = ∅
      ∧ (∀ st : VState, visitStmt (.importFrom (some "m") [("*", none)]) st = st)
      ∧ "zzq" ∈ resolveCell [.importFrom (some "m") [("*", none)],
            .exprStmt (.name "zzq" .load)] ∅
      ∧ "zzq" ∈ resolveCell [.exprStmt (.name "zzq" .load)]
          (collect_top_level_defs [.importFrom (some "m") [("*", none)]] ∅)) :=
  ⟨⟨by decide, by decide, by decide⟩,
    C10_star_import_binds_nothing (some "m") "zzq" ∅
      (by decide) (by decide) (by decide)⟩

/-- Claim C7: comprehension/generator scoping, over an arbitrary enclosing
visitor state `⟨g, s :: rest, u⟩`.
(a) The first generator clause's iterable is resolved before any
comprehension-local binding exists: even the comprehension's own loop
variable is unknown there (`[... for n in n]` reports `n`).
(b) The iterable of a subsequent generator clause sees the earlier
clause's loop variable, (c) condition expressions see the loop variable,
(d) the projection expression(s) of all four comprehension forms see the
loop variable — in each of (b)–(d) the visit returns the enclosing state
exactly: nothing is reported undefined, the pushed comprehension scope is
discarded, and the enclosing scope `s` is unchanged, so loop variables
bind into the comprehension scope and never the enclosing one.
(e) Consequently a load of the loop variable after the comprehension in
the same cell is still unknown. -/
theorem C7_comprehension_scoping (g s : Finset String)
    (rest : List (Finset String)) (u : Finset String) (v w n : String)
    (hn : isKnown ⟨g, s :: rest, u⟩ n = false)
    (hv : isKnown ⟨g, s :: rest, u⟩ v = false) :
    n ∈ (visitExpr (.listComp .const [.mk (.name n .store) (.name n .load) []])
          ⟨g, s :: rest, u⟩).undefined
    ∧ visitExpr (.listComp .const [.mk (.name v .store) .const [],
          .mk (.name w .store) (.name v .load) []]) ⟨g, s :: rest, u⟩
        = ⟨g, s :: rest, u⟩
    ∧ visitExpr (.listComp .const [.mk (.name v .store) .const [.name v .load]])
          ⟨g, s :: rest, u⟩ = ⟨g, s :: rest, u⟩
    ∧ visitExpr (.listComp (.name v .load) [.mk (.name v .store) .const []])
          ⟨g, s :: rest, u⟩ = ⟨g, s :: rest, u⟩
    ∧ visitExpr (.setComp (.name v .load) [.mk (.name v .store) .const []])
          ⟨g, s :: rest, u⟩ = ⟨g, s :: rest, u⟩
    ∧ visitExpr (.genExp (.name v .load) [.mk (.name v .store) .const []])
          ⟨g, s :: rest, u⟩ = ⟨g, s :: rest, u⟩
    ∧ visitExpr (.dictComp (.name v .load) (.name v .load)
          [.mk (.name v .store) .const []]) ⟨g, s :: rest, u⟩
        = ⟨g, s :: rest, u⟩
    ∧ v ∈ (visitExprs [.listComp .const [.mk (.name v .store) .const []],
          .name v .load] ⟨g, s :: rest, u⟩).undefined := by
  simp only [isKnown, Bool.or_eq_false_iff, decide_eq_false_iff_not,
    List.any_eq_false, decide_eq_true_eq] at hn hv
  obtain ⟨⟨⟨hn1, hn2⟩, hn3⟩, hn4⟩ := hn
  obtain ⟨⟨⟨hv1, hv2⟩, hv3⟩, hv4⟩ := hv
  have hn4' : ∀ x ∈ rest, n ∉ x := fun x hx => hn4 x (List.mem_cons_of_mem _ hx)
  have hv4' : ∀ x ∈ rest, v ∉ x := fun x hx => hv4 x (List.mem_cons_of_mem _ hx)
  refine ⟨?_, ?_, ?_, ?_, ?_, ?_, ?_, ?_⟩ <;>
    simp [visitExpr, visitGens, visitExprs, bindNameTarget, bindTop,
      pushScope, popScope, isKnown, List.any_eq_true,
      hn1, hn2, hn3, hv1, hv2, hv3, hn4, hv4, eq_true hn4', eq_true hv4']

/-- Claim C7, witness: the comprehension scoping theorem at the concrete
state `⟨∅, [∅], ∅⟩` with loop variables `v`, `w` and iterable name `n`. -/
theorem C7_comprehension_scoping_witness :
    (isKnown ⟨∅, [∅], ∅⟩ "n" = false ∧ isKnown ⟨∅, [∅], ∅⟩ "v" = false)
    ∧ ("n" ∈ (visitExpr
          (.listComp .const [.mk (.name "n" .store) (.name "n" .load) []])
          ⟨∅, [∅], ∅⟩).undefined
      ∧ visitExpr (.listComp .const [.mk (.name "v" .store) .const [],
            .mk (.name "w" .store) (.name "v" .load) []]) ⟨∅, [∅], ∅⟩
          = ⟨∅, [∅], ∅⟩
      ∧ visitExpr (.listComp .const
            [.mk (.name "v" .store) .const [.name "v" .load]]) ⟨∅, [∅], ∅⟩
          = ⟨∅, [∅], ∅⟩
      ∧ visitExpr (.listComp (.name "v" .load)
            [.mk (.name "v" .store) .const []]) ⟨∅, [∅], ∅⟩ = ⟨∅, [∅], ∅⟩
      ∧ visitExpr (.setComp (.name "v" .load)
            [.mk (.name "v" .store) .const []]) ⟨∅, [∅], ∅⟩ = ⟨∅, [∅], ∅⟩
      ∧ visitExpr (.genExp (.name "v" .load)
            [.mk (.name "v" .store) .const []]) ⟨∅, [∅], ∅⟩ = ⟨∅, [∅], ∅⟩
      ∧ visitExpr (.dictComp (.name "v" .load) (.name "v" .load)
            [.mk (.name "v" .store) .const []]) ⟨∅, [∅], ∅⟩ = ⟨∅, [∅], ∅⟩
      ∧ "v" ∈ (visitExprs [.listComp .const [.mk (.name "v" .store) .const []],
            .name "v" .load] ⟨∅, [∅], ∅⟩).undefined) :=
  ⟨⟨by decide, by decide⟩,
    C7_comprehension_scoping ∅ ∅ [] ∅ "v" "w" "n" (by decide) (by decide)⟩

/-- `_bind_args` reads only the parameter names, so erasing defaults and
annotations does not change it. -/
theorem bindArgs_erase (a : Args) (st : VState) :
    bindArgs (eraseA a) st = bindArgs a st := by
  cases a
  rfl

mutual

/-- `_bind_name` is unchanged by erasing unvisited positions. -/
theorem bindNameTarget_erase : (e : Expr) → (st : VState) →
    bindNameTarget (eraseE e) st = bindNameTarget e st
  | .name i c, st => rfl
  | .const, st => rfl
  | .call f args, st => rfl
  | .attr v a c, st => rfl
  | .tuple es c, st => by
    simp only [eraseE, bindNameTarget, bindNameTargets_erase es st]
  | .listE es c, st => by
    simp only [eraseE, bindNameTarget, bindNameTargets_erase es st]
  | .starred v c, st => by
    simp only [eraseE, bindNameTarget, bindNameTarget_erase v st]
  | .lam a b, st => rfl
  | .listComp e gs, st => rfl
  | .setComp e gs, st => rfl
  | .genExp e gs, st => rfl
  | .dictComp k v gs, st => rfl

/-- Target-list variant of `bindNameTarget_erase`. -/
theorem bindNameTargets_erase : (es : List Expr) → (st : VState) →
    bindNameTargets (eraseEs es) st = bindNameTargets es st
  | [], st => rfl
  | e :: es, st => by
    simp only [eraseEs, bindNameTargets, bindNameTarget_erase e st,
      bindNameTargets_erase es (bindNameTarget e st)]

end

mutual

/-- The resolver never visits decorator expressions, parameter defaults,
annotations, or class bases: its action on an expression is unchanged when
those positions are erased. -/
theorem visitExpr_erase : (e : Expr) → (st : VState) →
    visitExpr (eraseE e) st = visitExpr e st
  | .name i c, st => rfl
  | .const, st => rfl
  | .call f args, st => by
    simp only [eraseE, visitExpr, visitExpr_erase f st,
      visitExprs_erase args (visitExpr f st)]
  | .attr v a c, st => by
    simp only [eraseE, visitExpr, visitExpr_erase v st]
  | .tuple es c, st => by
    simp only [eraseE, visitExpr, visitExprs_erase es st]
  | .listE es c, st => by
    simp only [eraseE, visitExpr, visitExprs_erase es st]
  | .starred v c, st => by
    simp only [eraseE, visitExpr, visitExpr_erase v st]
  | .lam a b, st => by
    simp only [eraseE, visitExpr, bindArgs_erase a (pushScope st ∅),
      visitExpr_erase b (bindArgs a (pushScope st ∅))]
  | .listComp e gs, st => by
    simp only [eraseE, visitExpr, visitGens_erase gs (pushScope st ∅),
      visitExpr_erase e (visitGens gs (pushScope st ∅))]
  | .setComp e gs, st => by
    simp only [eraseE, visitExpr, visitGens_erase gs (pushScope st ∅),
      visitExpr_erase e (visitGens gs (pushScope st ∅))]
  | .genExp e gs, st => by
    simp only [eraseE, visitExpr, visitGens_erase gs (pushScope st ∅),
      visitExpr_erase e (visitGens gs (pushScope st ∅))]
  | .dictComp k v gs, st => by
    simp only [eraseE, visitExpr, visitGens_erase gs (pushScope st ∅),
      visitExpr_erase k (visitGens gs (pushScope st ∅)),
      visitExpr_erase v (visitExpr k (visitGens gs (pushScope st ∅)))]

/-- Generator-clause variant of `visitExpr_erase`. -/
theorem visitGens_erase : (gs : List Comp) → (st : VState) →
    visitGens (eraseGs gs) st = visitGens gs st
  | [], st => rfl
  | .mk t i ifs :: rest, st => by
    simp only [eraseGs, eraseC, visitGens, visitExpr_erase i st,
      bindNameTarget_erase t (visitExpr i st),
      visitExprs_erase ifs (bindNameTarget t (visitExpr i st)),
      visitGens_erase rest (visitExprs ifs (bindNameTarget t (visitExpr i st)))]

/-- Expression-list variant of `visitExpr_erase`. -/
theorem visitExprs_erase : (es : List Expr) → (st : VState) →
    visitExprs (eraseEs es) st = visitExprs es st
  | [], st => rfl
  | e :: es, st => by
    simp only [eraseEs, visitExprs, visitExpr_erase e st,
      visitExprs_erase es (visitExpr e st)]

/-- Statement variant of `visitExpr_erase`. -/
theorem visitStmt_erase : (s : Stmt) → (st : VState) →
    visitStmt (eraseS s) st = visitStmt s st
  | .exprStmt e, st => by
    simp only [eraseS, visitStmt, visitExpr_erase e st]
  | .assign ts v, st => by
    simp only [eraseS, visitStmt, visitExprs_erase ts st,
      visitExpr_erase v (visitExprs ts st)]
  | .functionDef nm a body decs ret, st => by
    simp only [eraseS, visitStmt, bindArgs_erase a (pushScope (bindTop st nm) ∅),
      visitStmts_erase body (bindArgs a (pushScope (bindTop st nm) ∅))]
  | .asyncFunctionDef nm a body decs ret, st => by
    simp only [eraseS, visitStmt, bindArgs_erase a (pushScope (bindTop st nm) ∅),
      visitStmts_erase body (bindArgs a (pushScope (bindTop st nm) ∅))]
  | .classDef nm bases body decs, st => by
    simp only [eraseS, visitStmt,
      visitStmts_erase body (pushScope (bindTop st nm) {"__class__"})]
  | .importStmt ns, st => rfl
  | .importFrom m ns, st => rfl

/-- Statement-list variant of `visitExpr_erase`. -/
theorem visitStmts_erase : (ss : List Stmt) → (st : VState) →
    visitStmts (eraseSs ss) st = visitStmts ss st
  | [], st => rfl
  | s :: ss, st => by
    simp only [eraseSs, visitStmts, visitStmt_erase s st,
      visitStmts_erase ss (visitStmt s st)]

end

/-- Claim C9: the Scope Resolver never visits decorator expressions,
parameter default values, annotations, or class base expressions — its
output on any cell is unchanged when all those positions are erased, so a
name loaded only there is never reported as undefined.  Concretely, a cell
using `zzq` (known nowhere) exclusively in a decorator, a parameter
default, a parameter annotation, a return annotation and a class base
yields no undefined names at all, whatever the Global Scope is. -/
theorem C9_unvisited_positions :
    (∀ (tree : List Stmt) (g : Finset String),
      resolveCell (eraseSs tree) g = resolveCell tree g)
    ∧ ∀ g : Finset String,
      resolveCell
        [.functionDef "f"
            (.mk ["p"] [] [] none none [.name "zzq" .load] [.name "zzq" .load]
              [.name "zzq" .load])
            [] [.name "zzq" .load] (some (.name "zzq" .load)),
          .classDef "C" [.name "zzq" .load] [] [.name "zzq" .load]] g = ∅ := by
  constructor
  · intro tree g
    unfold resolveCell
    rw [visitStmts_erase]
  · intro g
    simp [resolveCell, visitStmts, visitStmt, visitExpr, bindArgs, bindTop,
      pushScope, popScope]

end NotebookCheck




namespace Runner

/-- `installPackage` always reports the remapped package name. -/
theorem installPackage_pkg (po : Nat → InstallOutcome) (st : ExecState)
    (m : String) : (installPackage po st m).1.2 = moduleToPackage m := by
  unfold installPackage
  by_cases h1 : moduleToPackage m ∈ st.installedPkgs
  · simp [h1]
  · by_cases h2 : moduleToPackage m ∈ st.failedPkgs
    · simp [h1, h2]
    · cases h3 : po st.pipCalls <;> simp [h1, h2, h3]

/-- `installPackage` never spawns a sandbox run. -/
theorem installPackage_runCalls (po : Nat → InstallOutcome) (st : ExecState)
    (m : String) : (installPackage po st m).2.runCalls = st.runCalls := by
  unfold installPackage
  by_cases h1 : moduleToPackage m ∈ st.installedPkgs
  · simp [h1]
  · by_cases h2 : moduleToPackage m ∈ st.failedPkgs
    · simp [h1, h2]
    · cases h3 : po st.pipCalls <;> simp [h1, h2, h3]

/-- The preload loop never spawns a sandbox run. -/
theorem preloadAux_runCalls (po : Nat → InstallOutcome) :
    ∀ (ms : List String) (st : ExecState) (inst fail : List String),
      (preloadAux po ms st inst fail).2.runCalls = st.runCalls := by
  intro ms
  induction ms with
  | nil => intro st inst fail; rfl
  | cons m ms ih =>
    intro st inst fail
    unfold preloadAux
    dsimp only
    split
    · rw [ih, installPackage_runCalls]
    · rw [ih, installPackage_runCalls]

/-- `preloadModules` never spawns a sandbox run. -/
theorem preloadModules_runCalls (po : Nat → InstallOutcome) (st : ExecState)
    (ms : List String) : (preloadModules po st ms).2.runCalls = st.runCalls :=
  preloadAux_runCalls po ms st [] []

/-- `ensureBaseModules` never spawns a sandbox run. -/
theorem ensureBaseModules_runCalls (po : Nat → InstallOutcome) (st : ExecState) :
    (ensureBaseModules po st).2.runCalls = st.runCalls := by
  unfold ensureBaseModules
  split
  · rfl
  · rw [preloadModules_runCalls]

/-- Membership in the first-occurrence deduplication. -/
theorem mem_dedupFirstAux (a : String) : ∀ (l seen : List String),
    a ∈ dedupFirstAux seen l ↔ a ∈ l ∧ a ∉ seen := by
  intro l
  induction l with
  | nil => intro seen; simp [dedupFirstAux]
  | cons b l ih =>
    intro seen
    unfold dedupFirstAux
    by_cases hb : b ∈ seen
    · rw [if_pos hb, ih seen]
      constructor
      · rintro ⟨h1, h2⟩
        exact ⟨List.mem_cons_of_mem _ h1, h2⟩
      · rintro ⟨h1, h2⟩
        rcases List.mem_cons.mp h1 with rfl | h1
        · exact absurd hb h2
        · exact ⟨h1, h2⟩
    · rw [if_neg hb, List.mem_cons, ih (b :: seen)]
      simp only [List.mem_cons, not_or]
      constructor
      · rintro (rfl | ⟨h1, h2, h3⟩)
        · exact ⟨Or.inl rfl, hb⟩
        · exact ⟨Or.inr h1, h3⟩
      · rintro ⟨h1 | h1, h2⟩
        · exact Or.inl h1
        · by_cases hab : a = b
          · exact Or.inl hab
          · exact Or.inr ⟨h1, hab, h2⟩

/-- First-occurrence deduplication produces no duplicates. -/
theorem nodup_dedupFirstAux : ∀ (l seen : List String),
    (dedupFirstAux seen l).Nodup := by
  intro l
  induction l with
  | nil => intro seen; simp [dedupFirstAux]
  | cons b l ih =>
    intro seen
    unfold dedupFirstAux
    by_cases hb : b ∈ seen
    · rw [if_pos hb]; exact ih seen
    · rw [if_neg hb]
      refine List.nodup_cons.mpr ⟨?_, ih (b :: seen)⟩
      intro hmem
      exact ((mem_dedupFirstAux b l (b :: seen)).mp hmem).2 (List.mem_cons_self b _)

/-- `dedupFirst` keeps exactly the members. -/
theorem mem_dedupFirst (a : String) (l : List String) :
    a ∈ dedupFirst l ↔ a ∈ l := by
  simp [dedupFirst, mem_dedupFirstAux]

/-- `dedupFirst` produces no duplicates. -/
theorem nodup_dedupFirst (l : List String) : (dedupFirst l).Nodup :=
  nodup_dedupFirstAux l []

end Runner

namespace Runner

/-- The preload loop returns first-occurrence-deduplicated extensions of
its accumulators. -/
theorem preloadAux_shape (po : Nat → InstallOutcome) :
    ∀ (ms : List String) (st : ExecState) (inst fail : List String),
      ∃ i2 f2, (preloadAux po ms st inst fail).1.1 = dedupFirst (inst ++ i2)
        ∧ (preloadAux po ms st inst fail).1.2 = dedupFirst (fail ++ f2) := by
  intro ms
  induction ms with
  | nil =>
    intro st inst fail
    exact ⟨[], [], by simp [preloadAux], by simp [preloadAux]⟩
  | cons m ms ih =>
    intro st inst fail
    unfold preloadAux
    dsimp only
    split
    · obtain ⟨i2, f2, h1, h2⟩ :=
        ih (installPackage po st m).2 (inst ++ [(installPackage po st m).1.2]) fail
      exact ⟨(installPackage po st m).1.2 :: i2, f2,
        by rw [h1, List.append_assoc]; rfl, h2⟩
    · obtain ⟨i2, f2, h1, h2⟩ :=
        ih (installPackage po st m).2 inst (fail ++ [m])
      exact ⟨i2, m :: f2, h1, by rw [h2, List.append_assoc]; rfl⟩

/-- Accumulated resolved packages survive the preload loop. -/
theorem preloadAux_acc_inst (po : Nat → InstallOutcome) :
    ∀ (ms : List String) (st : ExecState) (inst fail : List String) (x : String),
      x ∈ inst → x ∈ (preloadAux po ms st inst fail).1.1 := by
  intro ms
  induction ms with
  | nil =>
    intro st inst fail x hx
    simpa [preloadAux, mem_dedupFirst] using hx
  | cons m ms ih =>
    intro st inst fail x hx
    unfold preloadAux
    dsimp only
    split
    · exact ih _ _ _ x (List.mem_append_left _ hx)
    · exact ih _ _ _ x hx

/-- Accumulated failed modules survive the preload loop. -/
theorem preloadAux_acc_fail (po : Nat → InstallOutcome) :
    ∀ (ms : List String) (st : ExecState) (inst fail : List String) (x : String),
      x ∈ fail → x ∈ (preloadAux po ms st inst fail).1.2 := by
  intro ms
  induction ms with
  | nil =>
    intro st inst fail x hx
    simpa [preloadAux, mem_dedupFirst] using hx
  | cons m ms ih =>
    intro st inst fail x hx
    unfold preloadAux
    dsimp only
    split
    · exact ih _ _ _ x hx
    · exact ih _ _ _ x (List.mem_append_left _ hx)

/-- Every requested module lands either in the failed-module list or (as
its resolved package name) in the installed-package list. -/
theorem preloadAux_cover (po : Nat → InstallOutcome) :
    ∀ (ms : List String) (st : ExecState) (inst fail : List String) (m : String),
      m ∈ ms → m ∈ (preloadAux po ms st inst fail).1.2
        ∨ moduleToPackage m ∈ (preloadAux po ms st inst fail).1.1 := by
  intro ms
  induction ms with
  | nil => intro st inst fail m hm; simp at hm
  | cons mh ms ih =>
    intro st inst fail m hm
    rcases List.mem_cons.mp hm with rfl | hm
    · unfold preloadAux
      dsimp only
      split
      · right
        rw [← installPackage_pkg po st m]
        exact preloadAux_acc_inst po ms _ _ _ _
          (List.mem_append_right _ (by simp))
      · left
        exact preloadAux_acc_fail po ms _ _ _ _
          (List.mem_append_right _ (by simp))
    · unfold preloadAux
      dsimp only
      split
      · exact ih _ _ _ m hm
      · exact ih _ _ _ m hm

end Runner

namespace Runner

/-- Claim C2, amended: the first resolution attempt records success as
Installed and an installer nonzero exit as Failed, but a pip timeout
records nothing; consequently, whenever the installer outcome the first
attempt would observe is not a timeout, a second sequential resolve of the
same module is a pure cache hit — same answer, same state, and in
particular no further installer invocation. -/
theorem C2_at_most_once_install (po : Nat → InstallOutcome) (st : ExecState)
    (m : String) (h : po st.pipCalls ≠ .timedOut) :
    (installPackage po (installPackage po st m).2 m).1
      = (installPackage po st m).1
    ∧ (installPackage po (installPackage po st m).2 m).2
      = (installPackage po st m).2
    ∧ (installPackage po (installPackage po st m).2 m).2.pipCalls
      = (installPackage po st m).2.pipCalls := by
  by_cases h1 : moduleToPackage m ∈ st.installedPkgs
  · simp [installPackage, h1]
  · by_cases h2 : moduleToPackage m ∈ st.failedPkgs
    · simp [installPackage, h1, h2]
    · cases h3 : po st.pipCalls with
      | timedOut => exact absurd h3 h
      | nonzeroExit =>
        simp [installPackage, h1, h2, h3, Finset.mem_insert]
      | success =>
        simp [installPackage, h1, h2, h3, Finset.mem_insert]

/-- Claim C2, witness: a fresh module whose install exits nonzero is not
re-attempted on the second resolve. -/
theorem C2_at_most_once_install_witness :
    (poNonzero stWarm.pipCalls ≠ .timedOut)
    ∧ ((installPackage poNonzero (installPackage poNonzero stWarm "requests").2
          "requests").1 = (installPackage poNonzero stWarm "requests").1
      ∧ (installPackage poNonzero (installPackage poNonzero stWarm "requests").2
          "requests").2 = (installPackage poNonzero stWarm "requests").2
      ∧ (installPackage poNonzero (installPackage poNonzero stWarm "requests").2
          "requests").2.pipCalls
          = (installPackage poNonzero stWarm "requests").2.pipCalls) :=
  ⟨by decide, C2_at_most_once_install poNonzero stWarm "requests" (by decide)⟩

/-- Claim C2, counterexample: when the first install attempt times out,
nothing is recorded in either cache (the source's `TimeoutExpired` branch
returns before `failed_packages.add`), so a second sequential resolve of
the same module spawns a second installer subprocess — the pip-invocation
counter reaches 2. -/
theorem C2_counterexample :
    (installPackage poTimeout stWarm "requests").2.failedPkgs = ∅
    ∧ (installPackage poTimeout stWarm "requests").2.installedPkgs = ∅
    ∧ (installPackage poTimeout stWarm "requests").2.pipCalls = 1
    ∧ (installPackage poTimeout
        (installPackage poTimeout stWarm "requests").2 "requests").2.pipCalls
        = 2 := by
  refine ⟨by decide, by decide, by decide, by decide⟩

end Runner

namespace Runner

/-- Claim C3: one execute call invokes the sandboxed runner at most twice;
the second invocation happens exactly when the first result is a
non-timeout failure, its stderr yields a missing-module name, and that
module's resolution succeeds.  A timeout, a failure without the
missing-module signature, or a failed remediation install all end after a
single run. -/
theorem C3_at_most_two_runs (po : Nat → InstallOutcome) (ro : Nat → ChildOutcome)
    (dur : Nat) (st : ExecState) (code : String) (hints : List String) :
    ((executeWithAutoInstall po ro dur st code hints).2.runCalls = st.runCalls + 1
      ∨ (executeWithAutoInstall po ro dur st code hints).2.runCalls = st.runCalls + 2)
    ∧ ((executeWithAutoInstall po ro dur st code hints).2.runCalls = st.runCalls + 2
        ↔ ((runCodeOnce (ro (preloadModules po st hints).2.runCalls)).ok = false
          ∧ (runCodeOnce (ro (preloadModules po st hints).2.runCalls)).timedOut = false
          ∧ extractMissingModule
              (runCodeOnce (ro (preloadModules po st hints).2.runCalls)).stderr ≠ ""
          ∧ (installPackage po
              { (preloadModules po st hints).2 with
                  runCalls := (preloadModules po st hints).2.runCalls + 1 }
              (extractMissingModule
                (runCodeOnce (ro (preloadModules po st hints).2.runCalls)).stderr)).1.1
            = true)) := by
  have hpre := preloadModules_runCalls po st hints
  have hip := installPackage_runCalls po
    { (preloadModules po st hints).2 with
        runCalls := (preloadModules po st hints).2.runCalls + 1 }
    (extractMissingModule
      (runCodeOnce (ro (preloadModules po st hints).2.runCalls)).stderr)
  unfold executeWithAutoInstall
  dsimp only
  split
  case isTrue hc =>
    rw [Bool.and_eq_true, Bool.not_eq_true', Bool.not_eq_true'] at hc
    obtain ⟨hok, hto⟩ := hc
    split
    case isTrue hm =>
      split
      case isTrue hipok =>
        dsimp only at hip ⊢
        constructor
        · right
          omega
        · constructor
          · intro _
            exact ⟨hok, hto, hm, hipok⟩
          · intro _
            omega
      case isFalse hipok =>
        dsimp only at hip ⊢
        constructor
        · left
          omega
        · constructor
          · intro hcontra
            omega
          · rintro ⟨_, _, _, h4⟩
            exact absurd h4 hipok
    case isFalse hm =>
      dsimp only
      constructor
      · left
        omega
      · constructor
        · intro hcontra
          omega
        · rintro ⟨_, _, h3, _⟩
          exact absurd h3 hm
  case isFalse hc =>
    rw [Bool.and_eq_true, Bool.not_eq_true', Bool.not_eq_true'] at hc
    dsimp only
    constructor
    · left
      omega
    · constructor
      · intro hcontra
        omega
      · rintro ⟨h1, h2, _, _⟩
        exact absurd ⟨h1, h2⟩ hc

end Runner

namespace Runner

/-- Claim C5, amended: the result's `installedPackages` is the
order-preserving, duplicate-free merge of the packages resolved from the
hints and the remediation-phase install (when it succeeded), and
`failedModules` is exactly the duplicate-free list of hinted modules whose
install failed, in hint order; every hinted module lands in one of the two
lists.  However `failedModules` is the preload failure list unchanged, so
a remediation-phase module whose install fails is NOT recorded (see the
counterexample). -/
theorem C5_dependency_lists (po : Nat → InstallOutcome) (ro : Nat → ChildOutcome)
    (dur : Nat) (st : ExecState) (code : String) (hints : List String) :
    (executeWithAutoInstall po ro dur st code hints).1.installedPackages
      = dedupFirst ((preloadModules po st hints).1.1 ++ retryInstalls po ro st hints)
    ∧ (executeWithAutoInstall po ro dur st code hints).1.failedModules
      = (preloadModules po st hints).1.2
    ∧ (executeWithAutoInstall po ro dur st code hints).1.installedPackages.Nodup
    ∧ (executeWithAutoInstall po ro dur st code hints).1.failedModules.Nodup
    ∧ hints.all (fun m =>
        decide (m ∈ (executeWithAutoInstall po ro dur st code hints).1.failedModules
          ∨ moduleToPackage m
              ∈ (executeWithAutoInstall po ro dur st code hints).1.installedPackages))
        = true := by
  have key : (executeWithAutoInstall po ro dur st code hints).1.installedPackages
      = dedupFirst ((preloadModules po st hints).1.1 ++ retryInstalls po ro st hints)
      ∧ (executeWithAutoInstall po ro dur st code hints).1.failedModules
        = (preloadModules po st hints).1.2 := by
    unfold executeWithAutoInstall retryInstalls
    dsimp only
    by_cases hc : (!(runCodeOnce (ro (preloadModules po st hints).2.runCalls)).ok
        && !(runCodeOnce (ro (preloadModules po st hints).2.runCalls)).timedOut) = true
    · rw [if_pos hc, if_pos hc]
      by_cases hm : extractMissingModule
          (runCodeOnce (ro (preloadModules po st hints).2.runCalls)).stderr ≠ ""
      · rw [if_pos hm, if_pos hm]
        by_cases hip : (installPackage po
            { (preloadModules po st hints).2 with
                runCalls := (preloadModules po st hints).2.runCalls + 1 }
            (extractMissingModule
              (runCodeOnce (ro (preloadModules po st hints).2.runCalls)).stderr)).1.1
            = true
        · rw [if_pos hip, if_pos hip]
          exact ⟨rfl, rfl⟩
        · rw [if_neg hip, if_neg hip]
          exact ⟨by rw [List.append_nil], rfl⟩
      · rw [if_neg hm, if_neg hm]
        exact ⟨by rw [List.append_nil], rfl⟩
    · rw [if_neg hc, if_neg hc]
      exact ⟨by rw [List.append_nil], rfl⟩
  obtain ⟨hI, hF⟩ := key
  refine ⟨hI, hF, ?_, ?_, ?_⟩
  · rw [hI]
    exact nodup_dedupFirst _
  · rw [hF]
    obtain ⟨i2, f2, hs1, hs2⟩ := preloadAux_shape po hints st [] []
    rw [show (preloadModules po st hints).1.2 = dedupFirst ([] ++ f2) from hs2]
    exact nodup_dedupFirst _
  · rw [List.all_eq_true]
    intro m hm'
    rw [decide_eq_true_eq]
    rcases preloadAux_cover po hints st [] [] m hm' with h | h
    · left
      rw [hF]
      exact h
    · right
      rw [hI, mem_dedupFirst]
      exact List.mem_append_left _ h

/-- Claim C5, counterexample: no hints, the single run fails with
`No module named 'foo'`, and the remediation install of `foo` exits
nonzero: the attempt is real (one pip invocation, `foo` cached Failed) yet
the returned `failedModules` list is empty — the remediation-phase module
does not appear in it. -/
theorem C5_counterexample :
    extractMissingModule (runCodeOnce (roMissingFoo 0)).stderr = "foo"
    ∧ (executeWithAutoInstall poNonzero roMissingFoo 5 stWarm "import foo" []).2.pipCalls
        = 1
    ∧ (executeWithAutoInstall poNonzero roMissingFoo 5 stWarm "import foo" []).2.failedPkgs
        = {"foo"}
    ∧ (executeWithAutoInstall poNonzero roMissingFoo 5 stWarm "import foo" []).1.failedModules
        = [] := by
  refine ⟨by decide, by decide, by decide, by decide⟩

end Runner

namespace Runner

/-- The oversized concrete code string has 20001 characters. -/
theorem bigCode_length : bigCode.length = 20001 := by
  show (List.replicate 20001 'a').length = 20001
  exact List.length_replicate 20001 'a'

/-- The oversized concrete code string does not strip to empty. -/
theorem bigCode_not_blank : isBlank bigCode = false := by
  show (List.replicate 20001 'a').all Char.isWhitespace = false
  rw [Bool.eq_false_iff]
  intro hall
  rw [List.all_eq_true] at hall
  exact absurd (hall 'a' (List.mem_replicate.mpr ⟨by decide, rfl⟩)) (by decide)

/-- Claim C4, amended: an execute request whose code exceeds
`MAX_CODE_CHARS` returns the length-exceeded result — `durationMs` 0,
empty stdout/stderr and empty package lists — and spawns no sandbox run;
no installer subprocess is spawned either once the one-time base-module
preload has already happened (then the whole state is untouched).  On the
very first request of a process, however, the base preload runs before
the length check and may spawn installer subprocesses (see the
counterexample). -/
theorem C4_oversized_rejected (po : Nat → InstallOutcome) (ro : Nat → ChildOutcome)
    (dur : Nat) (st : ExecState) (ev : Event)
    (ha : NotebookCheck.strToLower (NotebookCheck.strTrim (ev.action.getD "execute"))
      ≠ "preload")
    (hb : isBlank (ev.code.getD "") = false)
    (hl : (ev.code.getD "").length > MAX_CODE_CHARS) :
    (lambdaHandler po ro dur st ev).1
      = .execResp ⟨"", "", some "Code is too long (max 20000 characters).",
          false, 0, [], []⟩
    ∧ (lambdaHandler po ro dur st ev).2.runCalls = st.runCalls
    ∧ (st.basePreloadDone = true → (lambdaHandler po ro dur st ev).2 = st) := by
  unfold lambdaHandler
  dsimp only
  rw [if_neg ha, hb]
  rw [if_neg (by simp), if_pos hl]
  refine ⟨rfl, ensureBaseModules_runCalls po st, fun hd => ?_⟩
  simp [ensureBaseModules, hd]

/-- Claim C4, witness: the amended theorem at a warm state (base preload
done) and the 20001-character code string. -/
theorem C4_oversized_rejected_witness :
    (NotebookCheck.strToLower (NotebookCheck.strTrim
        ((Event.mk none (some bigCode) none).action.getD "execute")) ≠ "preload"
      ∧ isBlank ((Event.mk none (some bigCode) none).code.getD "") = false
      ∧ ((Event.mk none (some bigCode) none).code.getD "").length > MAX_CODE_CHARS)
    ∧ ((lambdaHandler poNonzero roMissingFoo 0 stWarm
          (Event.mk none (some bigCode) none)).1
        = .execResp ⟨"", "", some "Code is too long (max 20000 characters).",
            false, 0, [], []⟩
      ∧ (lambdaHandler poNonzero roMissingFoo 0 stWarm
          (Event.mk none (some bigCode) none)).2.runCalls = stWarm.runCalls
      ∧ (stWarm.basePreloadDone = true →
          (lambdaHandler poNonzero roMissingFoo 0 stWarm
            (Event.mk none (some bigCode) none)).2 = stWarm)) :=
  ⟨⟨by decide,
    bigCode_not_blank,
    by
      show bigCode.length > MAX_CODE_CHARS
      rw [bigCode_length]
      decide⟩,
    C4_oversized_rejected poNonzero roMissingFoo 0 stWarm
      (Event.mk none (some bigCode) none) (by decide)
      bigCode_not_blank
      (by
        show bigCode.length > MAX_CODE_CHARS
        rw [bigCode_length]
        decide)⟩

/-- Claim C4, counterexample: on the first request of a fresh process the
handler calls `_ensure_base_modules()` before the length check, so an
oversized request still spawns one installer subprocess per base module —
nine pip invocations here — even though the response is the
length-exceeded result.  "No subprocess of any kind is spawned" is
therefore false for that request. -/
theorem C4_counterexample :
    (lambdaHandler poNonzero roMissingFoo 0 stFresh
        (Event.mk none (some bigCode) none)).1
      = .execResp ⟨"", "", some "Code is too long (max 20000 characters).",
          false, 0, [], []⟩
    ∧ stFresh.pipCalls = 0
    ∧ (lambdaHandler poNonzero roMissingFoo 0 stFresh
        (Event.mk none (some bigCode) none)).2.pipCalls = 9 := by
  have hblank : isBlank ((Event.mk none (some bigCode) none).code.getD "") = false :=
    bigCode_not_blank
  have hlen : ((Event.mk none (some bigCode) none).code.getD "").length
      > MAX_CODE_CHARS := by
    show bigCode.length > MAX_CODE_CHARS
    rw [bigCode_length]
    decide
  have h9 : (ensureBaseModules poNonzero stFresh).2.pipCalls = 9 := by decide
  refine ⟨?_, by decide, ?_⟩ <;>
    (unfold lambdaHandler
     dsimp only
     rw [if_neg (by decide : NotebookCheck.strToLower (NotebookCheck.strTrim
        ((Event.mk none (some bigCode) none).action.getD "execute")) ≠ "preload"),
       hblank]
     rw [if_neg (by simp), if_pos hlen])
  exact h9

end Runner
